import Mathlib

/-!
Shallow embedding of the Go data-source adapter in `datasource.go`
(package main of pagarme/grafana-aws-cloudwatch-logs-datasource).

Conventions of the embedding:
- Go `int64` arithmetic is modelled on `Int`; the only arithmetic the adapter
  performs (`/ 1000`, `% 1000 * 1000 * 1000`) never overflows 64 bits for any
  epoch-millisecond input, so no wrap-around modelling is needed there.
- Go `/` and `%` on integers truncate toward zero: `Int.tdiv` / `Int.tmod`.
- Fallible Go calls (`(T, error)` returns) become `Except String T`.
- The external collaborators (JSON parsing, the AWS SDK session constructor,
  the paged AWS calls, `json.Marshal`, and the `sort.Slice` algorithm, whose
  ordering contract but not its algorithm is documented) are supplied by an
  explicit environment record `Env`; theorems quantify over environments.
- The process-wide client cache (`var clientCache`) is explicit state
  (`ClientState`) threaded through every function that touches it.
- `time.Unix(sec, nsec).Format(time.RFC3339)` is modelled in the UTC locale
  (Go renders a zero zone offset as the literal `Z`).
-/

set_option linter.unusedVariables false

/-! ## Go integer division and `time` formatting -/

/-- Civil date (year, month, day) from a count of days since 1970-01-01,
the standard era-based conversion used by proleptic-Gregorian calendars
(the same function `time.Time.Date` computes). -/
def civilFromDays (z0 : Int) : Int × Int × Int :=
  let z := z0 + 719468
  let era := Int.fdiv z 146097
  let doe := z - era * 146097
  let yoe := Int.fdiv (doe - Int.fdiv doe 1460 + Int.fdiv doe 36524 - Int.fdiv doe 146096) 365
  let y := yoe + era * 400
  let doy := doe - (365 * yoe + Int.fdiv yoe 4 - Int.fdiv yoe 100)
  let mp := Int.fdiv (5 * doy + 2) 153
  let d := doy - Int.fdiv (153 * mp + 2) 5 + 1
  let m := mp + (if mp < 10 then 3 else -9)
  (y + (if m ≤ 2 then 1 else 0), m, d)

/-- Left-pad the decimal rendering of a natural number with zeros to width `w`. -/
def padNat (w : Nat) (n : Nat) : String :=
  let s := toString n
  if w ≤ s.length then s else String.mk (List.replicate (w - s.length) '0') ++ s

/-- Render a nonnegative field of a date, width-padded; negative values
(which never arise for the fields we format) keep their sign. -/
def padInt (w : Nat) (n : Int) : String :=
  if n < 0 then "-" ++ padNat w (-n).toNat else padNat w n.toNat

/-- Format an epoch-second count as Go's `time.RFC3339` layout does in the UTC
locale: `2006-01-02T15:04:05Z07:00`, where a zero offset renders as `Z`. -/
def formatRFC3339UTC (sec : Int) : String :=
  let days := Int.fdiv sec 86400
  let sod := sec - days * 86400
  let ymd := civilFromDays days
  let hh := Int.fdiv sod 3600
  let mi := Int.fdiv (sod - hh * 3600) 60
  let ss := sod - hh * 3600 - mi * 60
  padInt 4 ymd.1 ++ "-" ++ padInt 2 ymd.2.1 ++ "-" ++ padInt 2 ymd.2.2 ++ "T" ++
    padInt 2 hh ++ ":" ++ padInt 2 mi ++ ":" ++ padInt 2 ss ++ "Z"

/-- The timestamp-cell expression of `parseTableResponse`:
`time.Unix(ms/1000, ms%1000*1000*1000).Format(time.RFC3339)`.
`time.Unix` normalizes the nanosecond argument into the second, and the
`RFC3339` layout carries no fractional-second field, so the rendered instant
is the floor second of the millisecond count. -/
def timeUnixFormatRFC3339 (ms : Int) : String :=
  formatRFC3339UTC (Int.tdiv ms 1000 + Int.fdiv (Int.tmod ms 1000 * 1000 * 1000) 1000000000)

/-! ## `strconv.ParseInt(s, 10, 64)` -/

deriving instance DecidableEq for Except

/-- Decimal digit value of a character, if it is one. -/
def digitVal (c : Char) : Option Nat :=
  if c.isDigit then some (c.toNat - 48) else none

/-- Accumulate a decimal digit string left to right; `none` on a non-digit. -/
def parseNatDigits (cs : List Char) : Option Nat :=
  cs.foldl
    (fun acc c =>
      match acc, digitVal c with
      | some n, some d => some (n * 10 + d)
      | _, _ => none)
    (some 0)

/-- Model of Go `strconv.ParseInt(s, 10, 64)`: optional sign, at least one
digit, all digits decimal, and the value must fit a signed 64-bit integer. -/
def parseInt64 (s : String) : Except String Int :=
  let cs := s.data
  let signDigits : Bool × List Char :=
    match cs with
    | '-' :: rest => (true, rest)
    | '+' :: rest => (false, rest)
    | _ => (false, cs)
  match signDigits.2, parseNatDigits signDigits.2 with
  | [], _ => .error "invalid syntax"
  | _, none => .error "invalid syntax"
  | _, some n =>
    let v : Int := if signDigits.1 then -(n : Int) else (n : Int)
    if v < -(2 ^ 63) ∨ 2 ^ 63 - 1 < v then .error "value out of range"
    else .ok v

/-! ## AWS SDK record types (`cloudwatchlogs`), restricted to the fields the
adapter reads or writes. The filter input carries the fields the adapter's
`Target` decode can populate; further AWS fields are never touched by the
program and are elided. All event fields are modelled as present (the Go code
dereferences them unconditionally; a record missing one panics, see spec 7f,
a case outside every claim). -/

namespace cloudwatchlogs

structure FilterLogEventsInput where
  logGroupName : Option String := none
  filterPattern : Option String := none
  limit : Option Int := none
  startTime : Option Int := none
  endTime : Option Int := none
deriving DecidableEq

structure FilteredLogEvent where
  timestamp : Int
  ingestionTime : Int
  logStreamName : String
  message : String
deriving DecidableEq

structure LogGroup where
  logGroupName : String
  creationTime : Int
deriving DecidableEq

structure LogStream where
  logStreamName : String
  creationTime : Int
deriving DecidableEq

end cloudwatchlogs

/-! ## Grafana plugin-model response types (`datasource` package). String
fields of the protobuf messages default to `""` and repeated fields to `[]`,
matching the Go zero values the program leaves untouched. -/

namespace datasource

inductive RowValueKind where
  | typeNull
  | typeDouble
  | typeInt64
  | typeBool
  | typeString
  | typeBytes
deriving DecidableEq

structure RowValue where
  kind : RowValueKind
  stringValue : String := ""
deriving DecidableEq

structure TableColumn where
  name : String
deriving DecidableEq

structure TableRow where
  values : List RowValue := []
deriving DecidableEq

structure Table where
  columns : List TableColumn := []
  rows : List TableRow := []
deriving DecidableEq

structure QueryResult where
  refId : String := ""
  error : String := ""
  metaJson : String := ""
  tables : List Table := []
deriving DecidableEq

structure DatasourceResponse where
  results : List QueryResult := []
deriving DecidableEq

structure TimeRange where
  fromRaw : String
  toRaw : String
deriving DecidableEq

structure Query where
  modelJson : String
deriving DecidableEq

structure DatasourceRequest where
  timeRange : TimeRange
  queries : List Query
deriving DecidableEq

end datasource

/-! ## The adapter's own types -/

/-- The decoded per-target query model (`type Target struct`). -/
structure Target where
  refId : String := ""
  queryType : String := ""
  format : String := ""
  region : String := ""
  input : cloudwatchlogs.FilterLogEventsInput := {}
deriving DecidableEq

/-- The view the program takes of a parsed `simplejson.Json` document: each
field is the result of the corresponding `Get(...).MustString()` call
(`MustString` yields `""` when the member is absent or not a string). -/
structure SimpleJson where
  queryType : String := ""
  region : String := ""
  subtype : String := ""
  prefixValue : String := ""
  logGroupName : String := ""
deriving DecidableEq

/-- A suggestion entry (`type suggestData struct`). -/
structure suggestData where
  text : String
  value : String
deriving DecidableEq

/-- The external world: JSON parsing/decoding, the AWS session constructor,
the three paged AWS operations (returned as their page lists; the program's
page callbacks concatenate them), `json.Marshal`, and the algorithm behind
`sort.Slice` (whose ordering contract, not its algorithm, is specified — Go
documents it as an unstable sort). Paged operations are keyed by the client
handle they are invoked on. -/
structure Env where
  parseJson : String → Except String SimpleJson
  unmarshalTarget : String → Except String Target
  newSession : String → Except String Unit
  filterLogEventsPages :
    Nat → cloudwatchlogs.FilterLogEventsInput →
      Except String (List (List cloudwatchlogs.FilteredLogEvent))
  describeLogGroupsPages :
    Nat → String → Except String (List (List cloudwatchlogs.LogGroup))
  describeLogStreamsPages :
    Nat → String → Except String (List (List cloudwatchlogs.LogStream))
  marshalOutput : List cloudwatchlogs.FilteredLogEvent → Except String String
  sortSliceGroups : List cloudwatchlogs.LogGroup → List cloudwatchlogs.LogGroup
  sortSliceStreams : List cloudwatchlogs.LogStream → List cloudwatchlogs.LogStream

/-- The process-wide mutable state: `var clientCache = make(map[string]*...)`.
Client handles are identified by allocation order (`nextClientId`);
`sessionsConstructed` counts invocations of `session.NewSession`, the
side effect the spec says must not repeat on a cache hit. -/
structure ClientState where
  clientCache : List (String × Nat) := []
  nextClientId : Nat := 0
  sessionsConstructed : Nat := 0
deriving DecidableEq

/-- First-match association-list lookup, the read of `clientCache[region]`. -/
def lookupCache : List (String × Nat) → String → Option Nat
  | [], _ => none
  | (r, c) :: rest, region => if r = region then some c else lookupCache rest region

/-- Model of `GetClient`: return the cached handle for the region if present;
otherwise construct a session (counted as a side effect), and on success store
and return a fresh handle. -/
def GetClient (env : Env) (st : ClientState) (region : String) :
    Except String Nat × ClientState :=
  match lookupCache st.clientCache region with
  | some client => (.ok client, st)
  | none =>
    match env.newSession region with
    | .error e =>
      (.error e, { st with sessionsConstructed := st.sessionsConstructed + 1 })
    | .ok _ =>
      (.ok st.nextClientId,
        { clientCache := (region, st.nextClientId) :: st.clientCache,
          nextClientId := st.nextClientId + 1,
          sessionsConstructed := st.sessionsConstructed + 1 })

/-! ## Result shaping -/

/-- The four string cells of one table row, in source order
(`Timestamp`, `IngestionTime`, `LogStreamName`, `Message`). -/
def eventRow (e : cloudwatchlogs.FilteredLogEvent) : datasource.TableRow :=
  { values :=
      [ { kind := .typeString, stringValue := timeUnixFormatRFC3339 e.timestamp },
        { kind := .typeString, stringValue := timeUnixFormatRFC3339 e.ingestionTime },
        { kind := .typeString, stringValue := e.logStreamName },
        { kind := .typeString, stringValue := e.message } ] }

/-- The result value `parseTableResponse` builds: fixed four-column schema,
one row per accumulated event in order. -/
def tableResult (events : List cloudwatchlogs.FilteredLogEvent)
    (refId : String) : datasource.QueryResult :=
  { refId := refId,
    tables :=
      [ { columns :=
            [ { name := "Timestamp" }, { name := "IngestionTime" },
              { name := "LogStreamName" }, { name := "Message" } ],
          rows := events.map eventRow } ] }

/-- Model of `parseTableResponse`. The Go function's error return is always
`nil`; the `Except` layer mirrors the signature. -/
def parseTableResponse (events : List cloudwatchlogs.FilteredLogEvent)
    (refId : String) : Except String datasource.QueryResult :=
  .ok (tableResult events refId)

/-- Model of `transformToTable`: two-column `text`/`value` table, one row per
suggestion in order. -/
def transformToTable (data : List suggestData) : datasource.Table :=
  { columns := [ { name := "text" }, { name := "value" } ],
    rows :=
      data.map fun r =>
        { values :=
            [ { kind := .typeString, stringValue := r.text },
              { kind := .typeString, stringValue := r.value } ] } }

/-! ## Bulk log-table mode (`handleQuery`) -/

/-- The decode loop of `handleQuery`: unmarshal each query model and overwrite
its filter's start/end with the request-level time range. -/
def decodeTargets (env : Env) (fromRaw toRaw : Int) :
    List datasource.Query → Except String (List Target)
  | [] => .ok []
  | q :: rest =>
    match env.unmarshalTarget q.modelJson with
    | .error e => .error e
    | .ok target =>
      match decodeTargets env fromRaw toRaw rest with
      | .error e => .error e
      | .ok targets =>
        .ok
          ({ target with
              input :=
                { target.input with startTime := some fromRaw, endTime := some toRaw } }
            :: targets)

/-- The per-target loop of `handleQuery`: get a region client, accumulate all
event pages, then dispatch on the declared format ("timeserie" aborts the
whole request; "table" appends a shaped result; anything else is skipped). -/
def handleTargets (env : Env) :
    ClientState → List datasource.QueryResult → List Target →
      Except String datasource.DatasourceResponse × ClientState
  | st, acc, [] => (.ok { results := acc }, st)
  | st, acc, target :: rest =>
    match GetClient env st target.region with
    | (.error e, st1) => (.error e, st1)
    | (.ok svc, st1) =>
      match env.filterLogEventsPages svc target.input with
      | .error e => (.error e, st1)
      | .ok pages =>
        if target.format = "timeserie" then
          (.error "not supported", st1)
        else if target.format = "table" then
          match parseTableResponse pages.flatten target.refId with
          | .error e => (.error e, st1)
          | .ok r => handleTargets env st1 (acc ++ [r]) rest
        else
          handleTargets env st1 acc rest

/-- Model of `handleQuery`: parse the raw time range, decode every target,
then run the per-target loop starting from an empty result list. -/
def handleQuery (env : Env) (st : ClientState)
    (tsdbReq : datasource.DatasourceRequest) :
    Except String datasource.DatasourceResponse × ClientState :=
  match parseInt64 tsdbReq.timeRange.fromRaw with
  | .error e => (.error e, st)
  | .ok fromRaw =>
    match parseInt64 tsdbReq.timeRange.toRaw with
    | .error e => (.error e, st)
    | .ok toRaw =>
      match decodeTargets env fromRaw toRaw tsdbReq.queries with
      | .error e => (.error e, st)
      | .ok targets => handleTargets env st [] targets

/-! ## Metadata-suggestion mode (`metricFindQuery`) -/

/-- Model of `metricFindQuery`: obtain the region client, then dispatch on the
`subtype` parameter; both recognized subtypes accumulate all pages, sort by
creation time descending via `sort.Slice` (the environment's algorithm), and
emit name suggestions; an unrecognized subtype leaves the suggestion list
empty. -/
def metricFindQuery (env : Env) (st : ClientState) (parameters : SimpleJson) :
    Except String datasource.DatasourceResponse × ClientState :=
  match GetClient env st parameters.region with
  | (.error e, st1) => (.error e, st1)
  | (.ok svc, st1) =>
    let dataE : Except String (List suggestData) :=
      if parameters.subtype = "log_group_names" then
        match env.describeLogGroupsPages svc parameters.prefixValue with
        | .error e => .error e
        | .ok pages =>
          .ok ((env.sortSliceGroups pages.flatten).map fun g =>
            { text := g.logGroupName, value := g.logGroupName })
      else if parameters.subtype = "log_stream_names" then
        match env.describeLogStreamsPages svc parameters.logGroupName with
        | .error e => .error e
        | .ok pages =>
          .ok ((env.sortSliceStreams pages.flatten).map fun s =>
            { text := s.logStreamName, value := s.logStreamName })
      else
        .ok []
    match dataE with
    | .error e => (.error e, st1)
    | .ok data =>
      (.ok
        { results :=
            [ { refId := "metricFindQuery", tables := [transformToTable data] } ] },
        st1)

/-! ## Top-level dispatch (`Query`) -/

/-- Transport-level outcome of `Query`: the Go method either panics on an
out-of-range index, returns `(nil, err)`, or returns `(resp, nil)`. -/
inductive QueryOutcome where
  | outOfRange
  | transportError (e : String)
  | ok (resp : datasource.DatasourceResponse)
deriving DecidableEq

/-- The `queryType == "annotationQuery"` block of `Query`: unmarshal the first
query only, parse the raw range, overwrite the filter bounds, fetch all event
pages, and serialize the accumulated payload. -/
def annotQueryBranch (env : Env) (st : ClientState) (q0 : datasource.Query)
    (timeRange : datasource.TimeRange) :
    Except String datasource.DatasourceResponse × ClientState :=
  match env.unmarshalTarget q0.modelJson with
  | .error e => (.error e, st)
  | .ok target =>
    match parseInt64 timeRange.fromRaw with
    | .error e => (.error e, st)
    | .ok fromRaw =>
      match parseInt64 timeRange.toRaw with
      | .error e => (.error e, st)
      | .ok toRaw =>
        let target :=
          { target with
              input :=
                { target.input with startTime := some fromRaw, endTime := some toRaw } }
        match GetClient env st target.region with
        | (.error e, st1) => (.error e, st1)
        | (.ok svc, st1) =>
          match env.filterLogEventsPages svc target.input with
          | .error e => (.error e, st1)
          | .ok pages =>
            match env.marshalOutput pages.flatten with
            | .error e => (.error e, st1)
            | .ok resultJson =>
              (.ok { results := [ { metaJson := resultJson } ] }, st1)

/-- Model of the `Query` method. `tsdbReq.Queries[0]` is read unconditionally
before any dispatch; on an empty query list that read panics (`outOfRange`).
Errors of the metadata-suggestion and bulk paths are wrapped into a successful
envelope holding a single error-tagged result; errors of the annotation path
(and of the initial model parse) surface at the transport level. -/
def Query (env : Env) (st : ClientState) (tsdbReq : datasource.DatasourceRequest) :
    QueryOutcome × ClientState :=
  match tsdbReq.queries.head? with
  | none => (.outOfRange, st)
  | some q0 =>
    match env.parseJson q0.modelJson with
    | .error e => (.transportError e, st)
    | .ok modelJson =>
      if modelJson.queryType = "metricFindQuery" then
        match metricFindQuery env st modelJson with
        | (.error e, st1) =>
          (.ok { results := [ { refId := "metricFindQuery", error := e } ] }, st1)
        | (.ok response, st1) => (.ok response, st1)
      else if modelJson.queryType = "annotationQuery" then
        match annotQueryBranch env st q0 tsdbReq.timeRange with
        | (.error e, st1) => (.transportError e, st1)
        | (.ok response, st1) => (.ok response, st1)
      else
        match handleQuery env st tsdbReq with
        | (.error e, st1) => (.ok { results := [ { error := e } ] }, st1)
        | (.ok response, st1) => (.ok response, st1)

/-- A simple concrete environment used to instantiate theorems with
hypotheses: every external call succeeds with an empty payload, JSON parsing
and target decoding are left failing (witnesses that need them override the
relevant fields), and `sort.Slice` is the identity arrangement. -/
def stubEnv : Env where
  parseJson := fun _ => .error "unparsed"
  unmarshalTarget := fun _ => .error "undecoded"
  newSession := fun _ => .ok ()
  filterLogEventsPages := fun _ _ => .ok []
  describeLogGroupsPages := fun _ _ => .ok []
  describeLogStreamsPages := fun _ _ => .ok []
  marshalOutput := fun _ => .ok ""
  sortSliceGroups := fun l => l
  sortSliceStreams := fun l => l

/-- Environment for the C1 witness: two decodable table-format targets. -/
def c1Env : Env :=
  { stubEnv with
      unmarshalTarget := fun s =>
        if s = "modelA" then .ok { refId := "A", format := "table", region := "us-east-1" }
        else if s = "modelB" then .ok { refId := "B", format := "table", region := "us-east-1" }
        else .error "undecoded" }

/-- Environment for the C2 witness: a table-format target followed by a
timeserie-format target, with all external calls succeeding. -/
def c2wEnv : Env :=
  { stubEnv with
      parseJson := fun _ => .ok {},
      unmarshalTarget := fun s =>
        if s = "mTable" then .ok { refId := "T1", format := "table", region := "r1" }
        else if s = "mTs" then .ok { refId := "T2", format := "timeserie", region := "r1" }
        else .error "undecoded" }

/-- Environment for the C2 counterexample: the fetch of the first (table)
target fails, so the abort message is the fetch error, not `"not supported"`. -/
def c2cEnv : Env :=
  { stubEnv with
      parseJson := fun _ => .ok {},
      unmarshalTarget := fun s =>
        if s = "mTable" then
          .ok { refId := "T1", format := "table", region := "r1",
                input := { logGroupName := some "g1" } }
        else if s = "mTs" then
          .ok { refId := "T2", format := "timeserie", region := "r1",
                input := { logGroupName := some "g2" } }
        else .error "undecoded",
      filterLogEventsPages := fun _ input =>
        if input.logGroupName = some "g1" then .error "page fetch failed" else .ok [] }

/-- Request used by the C2 counterexample. -/
def c2cReq : datasource.DatasourceRequest :=
  { timeRange := { fromRaw := "0", toRaw := "1" },
    queries := [ { modelJson := "mTable" }, { modelJson := "mTs" } ] }

/-- Environment for the C5 witness: an unrecognized subtype with a region
whose client construction succeeds. -/
def c5wEnv : Env :=
  { stubEnv with
      parseJson := fun _ =>
        .ok { queryType := "metricFindQuery", region := "r1", subtype := "unknown_subtype" } }

/-- Environment for the C5 counterexample: the subtype is unrecognized but
session construction for the region fails. -/
def c5cEnv : Env :=
  { stubEnv with
      parseJson := fun _ =>
        .ok { queryType := "metricFindQuery", region := "nowhere", subtype := "bogus" },
      newSession := fun _ => .error "bad region" }

/-- Environment for the C8 witness: a metadata-suggestion request whose
client construction fails, exercising the error-wrapping branch. -/
def c8wEnv : Env :=
  { stubEnv with
      parseJson := fun _ =>
        .ok { queryType := "metricFindQuery", region := "x", subtype := "log_group_names" },
      newSession := fun _ => .error "find boom" }

/-- Environment for the C9 witness: a decodable annotation target with one
fetched page and a fixed serialization. -/
def c9wEnv : Env :=
  { stubEnv with
      parseJson := fun _ => .ok { queryType := "annotationQuery" },
      unmarshalTarget := fun _ =>
        .ok { region := "r9", input := { logGroupName := some "g" } },
      filterLogEventsPages := fun _ _ =>
        .ok [ [ { timestamp := 1700000000123, ingestionTime := 1700000000456,
                  logStreamName := "s", message := "m" } ] ],
      marshalOutput := fun _ => .ok "payload" }

/-- Descending creation-time ordering on log groups: `a` may precede `b`
exactly when `b.creationTime ≤ a.creationTime`. A list is sorted by the
source comparator `*CreationTime_i > *CreationTime_j` precisely when it is
pairwise ordered by this relation. -/
def lgGe (a b : cloudwatchlogs.LogGroup) : Prop :=
  b.creationTime ≤ a.creationTime

instance : DecidableRel lgGe :=
  fun a b => inferInstanceAs (Decidable (b.creationTime ≤ a.creationTime))

instance : IsTotal cloudwatchlogs.LogGroup lgGe :=
  ⟨fun a b => Int.le_total b.creationTime a.creationTime⟩

instance : IsTrans cloudwatchlogs.LogGroup lgGe :=
  ⟨fun a b c hab hbc => le_trans hbc hab⟩

/-- The stable descending-by-creation-time arrangement the specification
asserts: insertion sort with the non-strict comparison keeps elements of
equal creation time in their original relative order. A list that is a
permutation of the input, pairwise ordered by `lgGe`, with ties in input
order, is unique, so the specification's claim is exactly agreement with
this arrangement. -/
def stableSortGroupsDesc (l : List cloudwatchlogs.LogGroup) :
    List cloudwatchlogs.LogGroup :=
  List.insertionSort lgGe l

/-- The documented contract of `sort.Slice` with the source's comparator: the
output is a permutation of the input, pairwise ordered by descending creation
time. Go documents `sort.Slice` as not guaranteed stable, so nothing beyond
this contract may be assumed of the algorithm. -/
def SortSliceSpecGroups
    (f : List cloudwatchlogs.LogGroup → List cloudwatchlogs.LogGroup) : Prop :=
  ∀ l, (f l).Perm l ∧ (f l).Pairwise lgGe


/-! ## Go's `sort.Slice` algorithm (releases 1.8 through 1.18, the era of
this codebase — note the `golang.org/x/net/context` import). `sort.Slice`
calls `quickSort_func(lessSwap, 0, length, maxDepth(length))`. For slices of
more than 12 elements it partitions (`doPivot`), falling back to heap sort at
depth 0; for slices of at most 12 elements it runs one ShellSort pass with
gap 6 and then insertion sort. The gap-6 pass swaps on a strict comparison
across six positions, which can move a later element of equal key ahead of an
earlier one — the documented reason `sort.Slice` is not guaranteed stable.
The slice is modelled as a `List` with positional read (`arrGet`) and swap
(`arrSwap`); every access of the algorithm is in bounds, so the out-of-range
defaults are never consulted. Go loops whose index advances monotonically
toward a fixed bound are modelled as recursions on an explicit iteration
count chosen at each call site to dominate the number of iterations, so the
cutoff branch is never taken. -/

instance : Inhabited cloudwatchlogs.LogGroup where
  default := { logGroupName := "", creationTime := 0 }

/-- Positional read of the modelled slice (`data[i]`). -/
def arrGet [Inhabited α] : List α → Nat → α
  | [], _ => default
  | x :: _, 0 => x
  | _ :: xs, i + 1 => arrGet xs i

/-- Positional write of the modelled slice. -/
def arrSet : List α → Nat → α → List α
  | [], _, _ => []
  | _ :: xs, 0, v => v :: xs
  | x :: xs, i + 1, v => x :: arrSet xs i v

/-- `data.Swap(i, j)` of Go's `lessSwap`. -/
def arrSwap [Inhabited α] (l : List α) (i j : Nat) : List α :=
  arrSet (arrSet l i (arrGet l j)) j (arrGet l i)

/-- Inner loop of `insertionSort_func`:
`for j := i; j > a && data.Less(j, j-1); j-- { data.Swap(j, j-1) }`. -/
def insertionInnerLoop [Inhabited α] (less : α → α → Bool) (a : Nat) :
    Nat → List α → List α
  | 0, arr => arr
  | j + 1, arr =>
    if a < j + 1 then
      if less (arrGet arr (j + 1)) (arrGet arr j) then
        insertionInnerLoop less a j (arrSwap arr (j + 1) j)
      else arr
    else arr

/-- Outer loop of `insertionSort_func`, running `i = a+1, ..., b-1`; the
first argument counts the remaining iterations. -/
def insertionOuterLoop [Inhabited α] (less : α → α → Bool) (a : Nat) :
    Nat → Nat → List α → List α
  | 0, _, arr => arr
  | n + 1, i, arr => insertionOuterLoop less a n (i + 1) (insertionInnerLoop less a i arr)

/-- `insertionSort_func(data, a, b)` of Go's sort package. -/
def insertionSortFunc [Inhabited α] (less : α → α → Bool) (arr : List α)
    (a b : Nat) : List α :=
  insertionOuterLoop less a (b - (a + 1)) (a + 1) arr

/-- The loop of `siftDown_func(data, lo, hi, first)`; `root` strictly
increases below `hi`, so `hi + 1` iterations always suffice. -/
def siftDownLoop [Inhabited α] (less : α → α → Bool) (first hi : Nat) :
    Nat → Nat → List α → List α
  | 0, _, arr => arr
  | f + 1, root, arr =>
    let child := 2 * root + 1
    if child ≥ hi then arr
    else
      let child :=
        if child + 1 < hi then
          if less (arrGet arr (first + child)) (arrGet arr (first + child + 1)) then child + 1
          else child
        else child
      if less (arrGet arr (first + root)) (arrGet arr (first + child)) then
        siftDownLoop less first hi f child (arrSwap arr (first + root) (first + child))
      else arr

/-- `siftDown_func(data, lo, hi, first)` of Go's sort package. -/
def siftDownFunc [Inhabited α] (less : α → α → Bool) (arr : List α)
    (lo hi first : Nat) : List α :=
  siftDownLoop less first hi (hi + 1) lo arr

/-- Heap-building loop of `heapSort_func`: `for i := (hi-1)/2; i >= 0; i--`;
the first argument is `i + 1`. -/
def heapBuildLoop [Inhabited α] (less : α → α → Bool) (first hi : Nat) :
    Nat → List α → List α
  | 0, arr => arr
  | n + 1, arr => heapBuildLoop less first hi n (siftDownFunc less arr n hi first)

/-- Extraction loop of `heapSort_func`: `for i := hi-1; i >= 0; i--`; the
first argument is `i + 1`. -/
def heapExtractLoop [Inhabited α] (less : α → α → Bool) (first hi : Nat) :
    Nat → List α → List α
  | 0, arr => arr
  | n + 1, arr =>
    heapExtractLoop less first hi n
      (siftDownFunc less (arrSwap arr first (first + n)) 0 n first)

/-- `heapSort_func(data, a, b)` of Go's sort package. -/
def heapSortFunc [Inhabited α] (less : α → α → Bool) (arr : List α)
    (a b : Nat) : List α :=
  let first := a
  let hi := b - a
  heapExtractLoop less first hi hi (heapBuildLoop less first hi ((hi - 1) / 2 + 1) arr)

/-- `medianOfThree_func(data, m1, m0, m2)` of Go's sort package. -/
def medianOfThreeFunc [Inhabited α] (less : α → α → Bool) (arr : List α)
    (m1 m0 m2 : Nat) : List α :=
  let arr := if less (arrGet arr m1) (arrGet arr m0) then arrSwap arr m1 m0 else arr
  if less (arrGet arr m2) (arrGet arr m1) then
    let arr := arrSwap arr m2 m1
    if less (arrGet arr m1) (arrGet arr m0) then arrSwap arr m1 m0 else arr
  else arr

/-- `doPivot_func` scan: `for ; a < c && data.Less(a, pivot); a++`. -/
def dpScanA [Inhabited α] (less : α → α → Bool) (arr : List α)
    (pivot c : Nat) : Nat → Nat → Nat
  | 0, a => a
  | f + 1, a =>
    if a < c then
      if less (arrGet arr a) (arrGet arr pivot) then dpScanA less arr pivot c f (a + 1)
      else a
    else a

/-- `doPivot_func` scan: `for ; b < c && !data.Less(pivot, b); b++`. -/
def dpScanB [Inhabited α] (less : α → α → Bool) (arr : List α)
    (pivot c : Nat) : Nat → Nat → Nat
  | 0, b => b
  | f + 1, b =>
    if b < c then
      if less (arrGet arr pivot) (arrGet arr b) then b
      else dpScanB less arr pivot c f (b + 1)
    else b

/-- `doPivot_func` scan: `for ; b < c && data.Less(pivot, c-1); c--`. -/
def dpScanC [Inhabited α] (less : α → α → Bool) (arr : List α)
    (pivot b : Nat) : Nat → Nat → Nat
  | 0, c => c
  | f + 1, c =>
    if b < c then
      if less (arrGet arr pivot) (arrGet arr (c - 1)) then dpScanC less arr pivot b f (c - 1)
      else c
    else c

/-- The partition loop of `doPivot_func`: interleaves the two scans and swaps
`data[b]` with `data[c-1]` until the indices cross. -/
def dpMidLoop [Inhabited α] (less : α → α → Bool) (pivot : Nat) :
    Nat → Nat → Nat → List α → List α × Nat × Nat
  | 0, b, c, arr => (arr, b, c)
  | f + 1, b, c, arr =>
    let b := dpScanB less arr pivot c (c + 1) b
    let c := dpScanC less arr pivot b (c + 1) c
    if b ≥ c then (arr, b, c)
    else dpMidLoop less pivot f (b + 1) (c - 1) (arrSwap arr b (c - 1))

/-- Protect-phase scan: `for ; a < b && !data.Less(b-1, pivot); b--`. -/
def dpProtScanB [Inhabited α] (less : α → α → Bool) (arr : List α)
    (pivot a : Nat) : Nat → Nat → Nat
  | 0, b => b
  | f + 1, b =>
    if a < b then
      if less (arrGet arr (b - 1)) (arrGet arr pivot) then b
      else dpProtScanB less arr pivot a f (b - 1)
    else b

/-- Protect-phase scan: `for ; a < b && data.Less(a, pivot); a++`. -/
def dpProtScanA [Inhabited α] (less : α → α → Bool) (arr : List α)
    (pivot b : Nat) : Nat → Nat → Nat
  | 0, a => a
  | f + 1, a =>
    if a < b then
      if less (arrGet arr a) (arrGet arr pivot) then dpProtScanA less arr pivot b f (a + 1)
      else a
    else a

/-- The protect loop of `doPivot_func`, run when many elements equal the
pivot; only `b` is needed afterwards. -/
def dpProtLoop [Inhabited α] (less : α → α → Bool) (pivot : Nat) :
    Nat → Nat → Nat → List α → List α × Nat
  | 0, _, b, arr => (arr, b)
  | f + 1, a, b, arr =>
    let b := dpProtScanB less arr pivot a (b + 1) b
    let a := dpProtScanA less arr pivot b (b + 1) a
    if a ≥ b then (arr, b)
    else dpProtLoop less pivot f (a + 1) (b - 1) (arrSwap arr a (b - 1))

/-- `doPivot_func(data, lo, hi)` of Go's sort package, returning the mutated
slice and `(midlo, midhi)`. -/
def doPivotFunc [Inhabited α] (less : α → α → Bool) (arr : List α)
    (lo hi : Nat) : List α × Nat × Nat :=
  let m := (lo + hi) / 2
  let arr :=
    if hi - lo > 40 then
      let s := (hi - lo) / 8
      let arr := medianOfThreeFunc less arr lo (lo + s) (lo + 2 * s)
      let arr := medianOfThreeFunc less arr m (m - s) (m + s)
      medianOfThreeFunc less arr (hi - 1) (hi - 1 - s) (hi - 1 - 2 * s)
    else arr
  let arr := medianOfThreeFunc less arr lo m (hi - 1)
  let pivot := lo
  let a := dpScanA less arr pivot (hi - 1) hi (lo + 1)
  let mid := dpMidLoop less pivot hi a (hi - 1) arr
  let arr := mid.1
  let b := mid.2.1
  let c := mid.2.2
  let dupsStep :=
    if hi - c < 5 then (arr, b, c, true)
    else if hi - c < (hi - lo) / 4 then
      let step1 :=
        if less (arrGet arr pivot) (arrGet arr (hi - 1)) then (arr, c, 0)
        else (arrSwap arr c (hi - 1), c + 1, 1)
      let arr := step1.1
      let c := step1.2.1
      let dups := step1.2.2
      let step2 :=
        if less (arrGet arr (b - 1)) (arrGet arr pivot) then (b, dups)
        else (b - 1, dups + 1)
      let b := step2.1
      let dups := step2.2
      let step3 :=
        if less (arrGet arr m) (arrGet arr pivot) then (arr, b, dups)
        else (arrSwap arr m (b - 1), b - 1, dups + 1)
      (step3.1, step3.2.1, c, decide (step3.2.2 > 1))
    else (arr, b, c, false)
  let arr := dupsStep.1
  let b := dupsStep.2.1
  let c := dupsStep.2.2.1
  let protect := dupsStep.2.2.2
  let prot := if protect then dpProtLoop less pivot hi a b arr else (arr, b)
  let arr := prot.1
  let b := prot.2
  (arrSwap arr pivot (b - 1), b - 1, c)

/-- Gap-6 ShellSort pass of `quickSort_func` for slices of at most 12
elements:
`for i := a+6; i < b; i++ { if data.Less(i, i-6) { data.Swap(i, i-6) } }`;
the first argument counts the remaining iterations. -/
def shellPassLoop [Inhabited α] (less : α → α → Bool) :
    Nat → Nat → List α → List α
  | 0, _, arr => arr
  | n + 1, i, arr =>
    shellPassLoop less n (i + 1)
      (if less (arrGet arr i) (arrGet arr (i - 6)) then arrSwap arr i (i - 6) else arr)

/-- The `b - a <= 12` tail of `quickSort_func`: one gap-6 ShellSort pass and
then insertion sort. -/
def smallSortFunc [Inhabited α] (less : α → α → Bool) (arr : List α)
    (a b : Nat) : List α :=
  if b - a > 1 then
    insertionSortFunc less (shellPassLoop less (b - (a + 6)) (a + 6) arr) a b
  else arr

/-- `quickSort_func(data, a, b, maxDepth)` of Go's sort package; each loop
iteration and each recursive call decrements `maxDepth` exactly as the Go
code does (heap sort when it reaches 0), so structural recursion on it is the
Go control flow verbatim. -/
def quickSortFunc [Inhabited α] (less : α → α → Bool) :
    Nat → List α → Nat → Nat → List α
  | 0, arr, a, b =>
    if b - a > 12 then heapSortFunc less arr a b
    else smallSortFunc less arr a b
  | d + 1, arr, a, b =>
    if b - a > 12 then
      let p := doPivotFunc less arr a b
      let mlo := p.2.1
      let mhi := p.2.2
      if mlo - a < b - mhi then
        quickSortFunc less d (quickSortFunc less d p.1 a mlo) mhi b
      else
        quickSortFunc less d (quickSortFunc less d p.1 mhi b) a mlo
    else smallSortFunc less arr a b

/-- The halving loop of Go's `maxDepth(n)`
(`for i := n; i > 0; i >>= 1 { depth++ }`); the loop runs at most `n`
iterations, the count supplied as the first argument. -/
def bitDepthLoop : Nat → Nat → Nat
  | 0, _ => 0
  | f + 1, i => if i > 0 then bitDepthLoop f (i / 2) + 1 else 0

/-- `maxDepth(n)` of Go's sort package: `depth * 2`. -/
def maxDepthGo (n : Nat) : Nat :=
  2 * bitDepthLoop n n

/-- `sort.Slice(x, less)` of Go releases 1.8 through 1.18:
`quickSort_func(lessSwap{less, swap}, 0, length, maxDepth(length))`. -/
def goSortSlice [Inhabited α] (less : α → α → Bool) (l : List α) : List α :=
  quickSortFunc less (maxDepthGo l.length) l 0 l.length

/-- The source's comparator at line 233:
`*groups.LogGroups[i].CreationTime > *groups.LogGroups[j].CreationTime`. -/
def lgLess (x y : cloudwatchlogs.LogGroup) : Bool :=
  decide (y.creationTime < x.creationTime)

/-- The library sort the program actually runs on the accumulated group list. -/
def goSortSliceGroups (l : List cloudwatchlogs.LogGroup) :
    List cloudwatchlogs.LogGroup :=
  goSortSlice lgLess l

/-- Environment for the C4 witness: two single-group pages with distinct
creation times, sorted by the stable algorithm (which meets the contract). -/
def c4wEnv : Env :=
  { stubEnv with
      describeLogGroupsPages := fun _ _ =>
        .ok [ [ { logGroupName := "older", creationTime := 10 } ],
              [ { logGroupName := "newer", creationTime := 20 } ] ],
      sortSliceGroups := stableSortGroupsDesc }

/-- The C4 counterexample listing: two pages of four groups, eight in all
(within `sort.Slice`'s 12-element ShellSort/insertion regime), with the
creation-time tie `A` (page one, provider position 1) and `B` (page two,
provider position 6) placed exactly six positions apart so that the gap-6
pass's single swap `Less(6, 0)` (creation time 5 > 1) moves `B` in front of
`A`; the subsequent insertion sort is stable and keeps that inversion. -/
def c4GoPages : List (List cloudwatchlogs.LogGroup) :=
  [ [ { logGroupName := "n1", creationTime := 1 },
      { logGroupName := "A", creationTime := 5 },
      { logGroupName := "n9", creationTime := 9 },
      { logGroupName := "n8", creationTime := 8 } ],
    [ { logGroupName := "n7", creationTime := 7 },
      { logGroupName := "n6", creationTime := 6 },
      { logGroupName := "B", creationTime := 5 },
      { logGroupName := "n0", creationTime := 0 } ] ]

/-- Environment for the C4 counterexample: the eight-group two-page listing,
sorted by the real library algorithm `goSortSliceGroups`. -/
def c4GoEnv : Env :=
  { stubEnv with
      describeLogGroupsPages := fun _ _ => .ok c4GoPages,
      sortSliceGroups := goSortSliceGroups }

example : timeUnixFormatRFC3339 1700000000123 = "2023-11-14T22:13:20Z" := by decide

example : parseInt64 "1700000000123" = .ok 1700000000123 := by decide
example : parseInt64 "-12" = .ok (-12) := by decide
example : (parseInt64 "12a").isOk = false := by decide
example : (parseInt64 "").isOk = false := by decide

/-! ## Helper lemmas about the client registry -/

lemma lookupCache_none_not_mem :
    ∀ {l : List (String × Nat)} {region : String},
      lookupCache l region = none → region ∉ l.map Prod.fst := by
  intro l
  induction l with
  | nil => intro region _ h; simp at h
  | cons p rest ih =>
    intro region h hmem
    obtain ⟨a, c⟩ := p
    by_cases har : a = region
    · simp [lookupCache, har] at h
    · simp [lookupCache, har] at h
      rcases List.mem_cons.mp hmem with h1 | h1
      · exact har h1.symm
      · exact ih h h1

lemma GetClient_isOk (env : Env) (st : ClientState) (region : String)
    (hs : env.newSession region = .ok ()) :
    ∃ c st1, GetClient env st region = (.ok c, st1) := by
  unfold GetClient
  cases hl : lookupCache st.clientCache region with
  | some c => exact ⟨c, st, rfl⟩
  | none =>
    rw [hs]
    exact ⟨st.nextClientId, _, rfl⟩

/-! ## Claim theorems -/

/-- C3: for every fetched record list, the table built by
`parseTableResponse` has exactly the four columns `Timestamp`,
`IngestionTime`, `LogStreamName`, `Message` in that order, one row per record
in accumulation order, each row holding exactly one string-typed value per
column in column order. -/
theorem claim_C3 (events : List cloudwatchlogs.FilteredLogEvent) (refId : String) :
    ∃ r table, parseTableResponse events refId = .ok r ∧
      r.refId = refId ∧
      r.tables = [table] ∧
      table.columns.map datasource.TableColumn.name =
        ["Timestamp", "IngestionTime", "LogStreamName", "Message"] ∧
      table.rows = events.map eventRow ∧
      table.rows.length = events.length ∧
      (∀ row ∈ table.rows, row.values.length = table.columns.length) ∧
      (∀ row ∈ table.rows, ∀ v ∈ row.values, v.kind = .typeString) := by
  refine ⟨_, _, rfl, rfl, rfl, rfl, rfl, by simp, ?_, ?_⟩
  · intro row hrow
    rw [List.mem_map] at hrow
    obtain ⟨e, _, rfl⟩ := hrow
    rfl
  · intro row hrow v hv
    rw [List.mem_map] at hrow
    obtain ⟨e, _, rfl⟩ := hrow
    simp only [eventRow, List.mem_cons, List.not_mem_nil, or_false] at hv
    rcases hv with rfl | rfl | rfl | rfl <;> rfl

/-- C6: a second `GetClient` call for a region whose first call succeeded
returns the identical handle without touching the state (hence without a
second session construction); a successful call either leaves the registry
unchanged or adds exactly the one new region entry; per-region uniqueness of
handles is preserved; and a single call constructs at most one session. -/
theorem claim_C6 (env : Env) (st : ClientState) (region : String) (c : Nat)
    (st1 : ClientState)
    (h : GetClient env st region = (.ok c, st1))
    (hnd : (st.clientCache.map Prod.fst).Nodup) :
    GetClient env st1 region = (.ok c, st1) ∧
    (st1.clientCache.map Prod.fst).Nodup ∧
    (st1.clientCache = st.clientCache ∨ st1.clientCache = (region, c) :: st.clientCache) ∧
    st1.sessionsConstructed ≤ st.sessionsConstructed + 1 ∧
    (GetClient env st1 region).2.sessionsConstructed = st1.sessionsConstructed := by
  unfold GetClient at h
  cases hl : lookupCache st.clientCache region with
  | some c0 =>
    rw [hl] at h
    injection h with h1 h2
    injection h1 with h1
    subst h1
    subst h2
    refine ⟨?_, hnd, Or.inl rfl, Nat.le_succ _, ?_⟩
    · unfold GetClient
      rw [hl]
    · unfold GetClient
      rw [hl]
  | none =>
    rw [hl] at h
    cases hs : env.newSession region with
    | error e => rw [hs] at h; simp at h
    | ok u =>
      rw [hs] at h
      injection h with h1 h2
      injection h1 with h1
      subst h1
      subst h2
      have hmem := lookupCache_none_not_mem hl
      refine ⟨?_, ?_, Or.inr rfl, Nat.le_refl _, ?_⟩
      · unfold GetClient
        simp [lookupCache]
      · simp only [List.map_cons, List.nodup_cons]
        exact ⟨hmem, hnd⟩
      · unfold GetClient
        simp [lookupCache]

/-- C6 witness: a concrete first call on the empty registry, then the claim
instantiated there. -/
theorem claim_C6_witness :
    GetClient stubEnv
        { clientCache := [("eu-west-1", 0)], nextClientId := 1, sessionsConstructed := 1 }
        "eu-west-1" =
      (.ok 0,
        { clientCache := [("eu-west-1", 0)], nextClientId := 1, sessionsConstructed := 1 }) ∧
    ((({ clientCache := [("eu-west-1", 0)], nextClientId := 1, sessionsConstructed := 1 } :
        ClientState)).clientCache.map Prod.fst).Nodup ∧
    ((({ clientCache := [("eu-west-1", 0)], nextClientId := 1, sessionsConstructed := 1 } :
        ClientState)).clientCache = ({} : ClientState).clientCache ∨
      (({ clientCache := [("eu-west-1", 0)], nextClientId := 1, sessionsConstructed := 1 } :
        ClientState)).clientCache = ("eu-west-1", 0) :: ({} : ClientState).clientCache) ∧
    (1 : Nat) ≤ 0 + 1 ∧
    (GetClient stubEnv
        { clientCache := [("eu-west-1", 0)], nextClientId := 1, sessionsConstructed := 1 }
        "eu-west-1").2.sessionsConstructed = 1 :=
  claim_C6 stubEnv {} "eu-west-1" 0
    { clientCache := [("eu-west-1", 0)], nextClientId := 1, sessionsConstructed := 1 }
    (by decide) (by decide)

/-- C10: `Query` reads `tsdbReq.Queries[0]` before any dispatch, so a request
with an empty query list panics (out-of-range index) instead of producing any
response or error result. -/
theorem claim_C10 (env : Env) (st : ClientState)
    (req : datasource.DatasourceRequest) (h : req.queries = []) :
    Query env st req = (.outOfRange, st) := by
  unfold Query
  rw [h]
  rfl

/-- C10 witness: the empty-request panic at a concrete input. -/
theorem claim_C10_witness :
    Query stubEnv {} { timeRange := { fromRaw := "0", toRaw := "0" }, queries := [] } =
      (.outOfRange, {}) :=
  claim_C10 stubEnv {} _ rfl

/-! ## Helper lemmas about the bulk-mode loop -/

lemma decodeTargets_length (env : Env) (fromRaw toRaw : Int) :
    ∀ {qs : List datasource.Query} {ts : List Target},
      decodeTargets env fromRaw toRaw qs = .ok ts → ts.length = qs.length := by
  intro qs
  induction qs with
  | nil => intro ts h; simp [decodeTargets] at h; simp [← h]
  | cons q rest ih =>
    intro ts h
    simp only [decodeTargets] at h
    cases hu : env.unmarshalTarget q.modelJson with
    | error e => rw [hu] at h; simp at h
    | ok target =>
      rw [hu] at h
      cases hr : decodeTargets env fromRaw toRaw rest with
      | error e => rw [hr] at h; simp at h
      | ok ts0 =>
        rw [hr] at h
        injection h with h
        rw [← h]
        simp [ih hr]

lemma handleTargets_all_table (env : Env) :
    ∀ (targets : List Target) (st : ClientState) (acc : List datasource.QueryResult),
      (∀ t ∈ targets, t.format = "table") →
      (∀ t ∈ targets, env.newSession t.region = .ok ()) →
      (∀ t ∈ targets, ∀ c, (env.filterLogEventsPages c t.input).isOk = true) →
      ∃ resp st1, handleTargets env st acc targets = (.ok resp, st1) ∧
        resp.results.map datasource.QueryResult.refId =
          acc.map datasource.QueryResult.refId ++ targets.map Target.refId := by
  intro targets
  induction targets with
  | nil =>
    intro st acc _ _ _
    exact ⟨{ results := acc }, st, rfl, by simp⟩
  | cons t rest ih =>
    intro st acc hf hs hp
    obtain ⟨c, st1, hget⟩ := GetClient_isOk env st t.region (hs t (by simp))
    have hpk := hp t (by simp) c
    cases hpp : env.filterLogEventsPages c t.input with
    | error e => rw [hpp] at hpk; simp [Except.isOk, Except.toBool] at hpk
    | ok pages =>
      have ht : t.format = "table" := hf t (by simp)
      have hne : ¬ t.format = "timeserie" := by rw [ht]; decide
      obtain ⟨resp, st2, hrec, hmap⟩ :=
        ih st1 (acc ++ [tableResult pages.flatten t.refId])
          (fun t' h' => hf t' (by simp [h'])) (fun t' h' => hs t' (by simp [h']))
          (fun t' h' => hp t' (by simp [h']))
      refine ⟨resp, st2, ?_, ?_⟩
      · simp only [handleTargets, hget, hpp, if_neg hne, if_pos ht, parseTableResponse]
        exact hrec
      · rw [hmap]
        simp [tableResult]

/-- C1: for every bulk-mode request in which every decoded target declares
format `"table"`, session construction succeeds for every target region, and
every page fetch succeeds, `handleQuery` answers with a response holding
exactly one result per target, in request order, the i-th result tagged with
the i-th target's reference id. -/
theorem claim_C1 (env : Env) (st : ClientState)
    (req : datasource.DatasourceRequest) (fromRaw toRaw : Int)
    (targets : List Target)
    (hfrom : parseInt64 req.timeRange.fromRaw = .ok fromRaw)
    (hto : parseInt64 req.timeRange.toRaw = .ok toRaw)
    (hdec : decodeTargets env fromRaw toRaw req.queries = .ok targets)
    (hfmt : ∀ t ∈ targets, t.format = "table")
    (hsess : ∀ t ∈ targets, env.newSession t.region = .ok ())
    (hfetch : ∀ t ∈ targets, ∀ c, (env.filterLogEventsPages c t.input).isOk = true) :
    ∃ resp st1, handleQuery env st req = (.ok resp, st1) ∧
      resp.results.map datasource.QueryResult.refId = targets.map Target.refId ∧
      resp.results.length = req.queries.length := by
  obtain ⟨resp, st1, hrun, hmap⟩ :=
    handleTargets_all_table env targets st [] hfmt hsess hfetch
  refine ⟨resp, st1, ?_, ?_, ?_⟩
  · simp only [handleQuery, hfrom, hto, hdec]
    exact hrun
  · simpa using hmap
  · have hlen := congrArg List.length hmap
    simp at hlen
    rw [hlen, decodeTargets_length env fromRaw toRaw hdec]

/-- C1 witness: the claim applied to a concrete two-target request. -/
theorem claim_C1_witness :
    ∃ resp st1,
      handleQuery c1Env {}
          { timeRange := { fromRaw := "1500000000000", toRaw := "1600000000000" },
            queries := [ { modelJson := "modelA" }, { modelJson := "modelB" } ] } =
        (.ok resp, st1) ∧
      resp.results.map datasource.QueryResult.refId =
        [ { refId := "A", format := "table", region := "us-east-1",
            input := { startTime := some 1500000000000, endTime := some 1600000000000 } },
          { refId := "B", format := "table", region := "us-east-1",
            input := { startTime := some 1500000000000,
                       endTime := some 1600000000000 } } ].map Target.refId ∧
      resp.results.length =
        [ ({ modelJson := "modelA" } : datasource.Query), { modelJson := "modelB" } ].length :=
  claim_C1 c1Env {} _ 1500000000000 1600000000000 _
    (by decide) (by decide) (by decide)
    (by decide) (fun t _ => rfl) (fun t _ c => rfl)

lemma handleTargets_timeserie_err (env : Env) :
    ∀ (targets : List Target) (st : ClientState) (acc : List datasource.QueryResult),
      (∃ t ∈ targets, t.format = "timeserie") →
      ∃ e st1, handleTargets env st acc targets = (.error e, st1) := by
  intro targets
  induction targets with
  | nil => intro st acc h; simp at h
  | cons t rest ih =>
    intro st acc hex
    rcases hget : GetClient env st t.region with ⟨res, st1⟩
    cases res with
    | error e => exact ⟨e, st1, by simp only [handleTargets, hget]⟩
    | ok svc =>
      cases hpp : env.filterLogEventsPages svc t.input with
      | error e => exact ⟨e, st1, by simp only [handleTargets, hget, hpp]⟩
      | ok pages =>
        by_cases hts : t.format = "timeserie"
        · exact ⟨"not supported", st1,
            by simp only [handleTargets, hget, hpp, if_pos hts]⟩
        · have hex1 : ∃ t1 ∈ rest, t1.format = "timeserie" := by
            rcases hex with ⟨t1, hmem, hfmt1⟩
            rcases List.mem_cons.mp hmem with rfl | hmem1
            · exact absurd hfmt1 hts
            · exact ⟨t1, hmem1, hfmt1⟩
          by_cases htb : t.format = "table"
          · obtain ⟨e, st2, hrec⟩ := ih st1 (acc ++ [tableResult pages.flatten t.refId]) hex1
            exact ⟨e, st2,
              by simp only [handleTargets, hget, hpp, if_neg hts, if_pos htb,
                   parseTableResponse]; exact hrec⟩
          · obtain ⟨e, st2, hrec⟩ := ih st1 acc hex1
            exact ⟨e, st2,
              by simp only [handleTargets, hget, hpp, if_neg hts, if_neg htb]; exact hrec⟩

lemma handleTargets_first_timeserie (env : Env) :
    ∀ (pre : List Target) (st : ClientState) (acc : List datasource.QueryResult)
      (t0 : Target) (post : List Target),
      (∀ t ∈ pre, t.format ≠ "timeserie") →
      (∀ t ∈ pre, env.newSession t.region = .ok ()) →
      (∀ t ∈ pre, ∀ c, (env.filterLogEventsPages c t.input).isOk = true) →
      t0.format = "timeserie" →
      env.newSession t0.region = .ok () →
      (∀ c, (env.filterLogEventsPages c t0.input).isOk = true) →
      ∃ st1, handleTargets env st acc (pre ++ t0 :: post) = (.error "not supported", st1) := by
  intro pre
  induction pre with
  | nil =>
    intro st acc t0 post _ _ _ ht0 hs0 hp0
    obtain ⟨c, st1, hget⟩ := GetClient_isOk env st t0.region hs0
    have hpk := hp0 c
    cases hpp : env.filterLogEventsPages c t0.input with
    | error e => rw [hpp] at hpk; simp [Except.isOk, Except.toBool] at hpk
    | ok pages =>
      exact ⟨st1, by simp only [List.nil_append, handleTargets, hget, hpp, if_pos ht0]⟩
  | cons t rest ih =>
    intro st acc t0 post hfmt hsess hfetch ht0 hs0 hp0
    obtain ⟨c, st1, hget⟩ := GetClient_isOk env st t.region (hsess t (by simp))
    have hpk := hfetch t (by simp) c
    cases hpp : env.filterLogEventsPages c t.input with
    | error e => rw [hpp] at hpk; simp [Except.isOk, Except.toBool] at hpk
    | ok pages =>
      have hts : ¬ t.format = "timeserie" := hfmt t (by simp)
      by_cases htb : t.format = "table"
      · obtain ⟨st2, hrec⟩ := ih st1 (acc ++ [tableResult pages.flatten t.refId]) t0 post
          (fun t1 h1 => hfmt t1 (by simp [h1])) (fun t1 h1 => hsess t1 (by simp [h1]))
          (fun t1 h1 => hfetch t1 (by simp [h1])) ht0 hs0 hp0
        exact ⟨st2,
          by simp only [List.cons_append, handleTargets, hget, hpp, if_neg hts,
               if_pos htb, parseTableResponse]; exact hrec⟩
      · obtain ⟨st2, hrec⟩ := ih st1 acc t0 post
          (fun t1 h1 => hfmt t1 (by simp [h1])) (fun t1 h1 => hsess t1 (by simp [h1]))
          (fun t1 h1 => hfetch t1 (by simp [h1])) ht0 hs0 hp0
        exact ⟨st2,
          by simp only [List.cons_append, handleTargets, hget, hpp, if_neg hts,
               if_neg htb]; exact hrec⟩

/-- C2 (amended): a bulk-mode request whose decoded target list contains a
`"timeserie"`-format target always answers with a single error-tagged result
carrying no tables — no table result of an earlier target survives — and the
message is exactly `"not supported"` provided client construction and page
fetching succeed for every target before the first `timeserie` target and for
that target itself (an earlier failure surfaces that failure's own message
instead, which is what the counterexample exhibits). -/
theorem claim_C2 (env : Env) (st : ClientState)
    (req : datasource.DatasourceRequest) (q0 : datasource.Query)
    (doc : SimpleJson) (fromRaw toRaw : Int)
    (pre : List Target) (t0 : Target) (post : List Target)
    (hq0 : req.queries.head? = some q0)
    (hparse : env.parseJson q0.modelJson = .ok doc)
    (hm : doc.queryType ≠ "metricFindQuery")
    (ha : doc.queryType ≠ "annotationQuery")
    (hfrom : parseInt64 req.timeRange.fromRaw = .ok fromRaw)
    (hto : parseInt64 req.timeRange.toRaw = .ok toRaw)
    (hdec : decodeTargets env fromRaw toRaw req.queries = .ok (pre ++ t0 :: post))
    (ht0 : t0.format = "timeserie") :
    (∃ e st1, Query env st req = (.ok { results := [ { error := e } ] }, st1)) ∧
    ((∀ t ∈ pre, t.format ≠ "timeserie") →
     (∀ t ∈ pre, env.newSession t.region = .ok ()) →
     (∀ t ∈ pre, ∀ c, (env.filterLogEventsPages c t.input).isOk = true) →
     env.newSession t0.region = .ok () →
     (∀ c, (env.filterLogEventsPages c t0.input).isOk = true) →
     ∃ st1, Query env st req = (.ok { results := [ { error := "not supported" } ] }, st1)) := by
  constructor
  · obtain ⟨e, st1, hht⟩ :=
      handleTargets_timeserie_err env (pre ++ t0 :: post) st []
        ⟨t0, by simp, ht0⟩
    have hq : handleQuery env st req = (.error e, st1) := by
      simp only [handleQuery, hfrom, hto, hdec]
      exact hht
    exact ⟨e, st1, by simp only [Query, hq0, hparse, if_neg hm, if_neg ha, hq]⟩
  · intro h1 h2 h3 h4 h5
    obtain ⟨st1, hht⟩ :=
      handleTargets_first_timeserie env pre st [] t0 post h1 h2 h3 ht0 h4 h5
    have hq : handleQuery env st req = (.error "not supported", st1) := by
      simp only [handleQuery, hfrom, hto, hdec]
      exact hht
    exact ⟨st1, by simp only [Query, hq0, hparse, if_neg hm, if_neg ha, hq]⟩

/-- C2 witness: with every fetch succeeding, the whole request collapses to
the single `"not supported"` error result. -/
theorem claim_C2_witness :
    ∃ st1,
      Query c2wEnv {}
          { timeRange := { fromRaw := "0", toRaw := "1" },
            queries := [ { modelJson := "mTable" }, { modelJson := "mTs" } ] } =
        (.ok { results := [ { error := "not supported" } ] }, st1) :=
  (claim_C2 c2wEnv {} _ { modelJson := "mTable" } {} 0 1
      [ { refId := "T1", format := "table", region := "r1",
          input := { startTime := some 0, endTime := some 1 } } ]
      { refId := "T2", format := "timeserie", region := "r1",
        input := { startTime := some 0, endTime := some 1 } }
      []
      (by decide) (by decide) (by decide) (by decide) (by decide) (by decide)
      (by decide) (by decide)).2
    (by decide) (fun t _ => rfl) (fun t _ c => rfl) rfl (fun c => rfl)

/-- C2 counterexample: the request decodes to targets containing a
`"timeserie"` format, yet the single error result carries the first target's
fetch-failure message rather than `"not supported"`. -/
theorem claim_C2_counterexample :
    (∃ ts, decodeTargets c2cEnv 0 1 c2cReq.queries = .ok ts ∧
      ts.any (fun t => t.format == "timeserie") = true) ∧
    Query c2cEnv {} c2cReq =
      (.ok { results := [ { error := "page fetch failed" } ] },
        { clientCache := [("r1", 0)], nextClientId := 1, sessionsConstructed := 1 }) ∧
    "page fetch failed" ≠ "not supported" := by
  refine ⟨⟨_, rfl, rfl⟩, by decide, by decide⟩

/-- C7 (amended): the epoch-millisecond value 1700000000123 formats (in the
UTC locale) to `"2023-11-14T22:13:20Z"` — Go's RFC3339 layout renders a zero
zone offset as `Z`, never `+00:00` — formatting is a pure function of the
input (determinism across repeated calls is intrinsic to the embedding), and
within one record the Timestamp and IngestionTime cells are distinguishable
whenever the two epoch values fall in different whole seconds, as they do for
1700000000123 and 1700000001456. -/
theorem claim_C7 :
    timeUnixFormatRFC3339 1700000000123 = "2023-11-14T22:13:20Z" ∧
    timeUnixFormatRFC3339 1700000001456 = "2023-11-14T22:13:21Z" ∧
    timeUnixFormatRFC3339 1700000000123 ≠ timeUnixFormatRFC3339 1700000001456 ∧
    (eventRow { timestamp := 1700000000123, ingestionTime := 1700000001456,
                logStreamName := "s", message := "m" }).values.map
        datasource.RowValue.stringValue =
      ["2023-11-14T22:13:20Z", "2023-11-14T22:13:21Z", "s", "m"] := by
  exact ⟨by decide, by decide, by decide, by decide⟩

/-- C7 counterexample: the claimed literal `"...+00:00"` is not what the code
produces for 1700000000123 (the zero offset renders as `Z`), and two distinct
epoch-millisecond values within the same whole second format identically, so
a Timestamp cell is not always distinguishable from an IngestionTime cell
formatted from a different epoch value. -/
theorem claim_C7_counterexample :
    timeUnixFormatRFC3339 1700000000123 ≠ "2023-11-14T22:13:20+00:00" ∧
    (1700000000123 : Int) ≠ 1700000000456 ∧
    timeUnixFormatRFC3339 1700000000123 = timeUnixFormatRFC3339 1700000000456 := by
  exact ⟨by decide, by decide, by decide⟩

/-- C5 (amended): a `metricFindQuery` request whose subtype is neither
`"log_group_names"` nor `"log_stream_names"` yields a successful result with
the two fixed columns `text`/`value` and zero rows — provided obtaining the
region client succeeds, since `metricFindQuery` requests the client before
inspecting the subtype (a client-construction failure yields an error result
instead, which is what the counterexample exhibits). -/
theorem claim_C5 (env : Env) (st : ClientState)
    (req : datasource.DatasourceRequest) (q0 : datasource.Query)
    (doc : SimpleJson) (svc : Nat) (st1 : ClientState)
    (hq0 : req.queries.head? = some q0)
    (hparse : env.parseJson q0.modelJson = .ok doc)
    (hqt : doc.queryType = "metricFindQuery")
    (hsub1 : doc.subtype ≠ "log_group_names")
    (hsub2 : doc.subtype ≠ "log_stream_names")
    (hcli : GetClient env st doc.region = (.ok svc, st1)) :
    Query env st req =
      (.ok
        { results :=
            [ { refId := "metricFindQuery",
                tables :=
                  [ { columns := [ { name := "text" }, { name := "value" } ],
                      rows := [] } ] } ] },
        st1) := by
  simp only [Query, hq0, hparse, if_pos hqt, metricFindQuery, hcli,
    if_neg hsub1, if_neg hsub2, transformToTable, List.map_nil]

/-- C5 witness: a concrete unrecognized subtype with a working region. -/
theorem claim_C5_witness :
    Query c5wEnv
        {} { timeRange := { fromRaw := "0", toRaw := "1" },
             queries := [ { modelJson := "m" } ] } =
      (.ok
        { results :=
            [ { refId := "metricFindQuery",
                tables :=
                  [ { columns := [ { name := "text" }, { name := "value" } ],
                      rows := [] } ] } ] },
        { clientCache := [("r1", 0)], nextClientId := 1, sessionsConstructed := 1 }) :=
  claim_C5 c5wEnv {} _ { modelJson := "m" }
    { queryType := "metricFindQuery", region := "r1", subtype := "unknown_subtype" }
    0 { clientCache := [("r1", 0)], nextClientId := 1, sessionsConstructed := 1 }
    (by decide) (by decide) (by decide) (by decide) (by decide) (by decide)

/-- C5 counterexample: for an unrecognized subtype the dispatcher can still
answer with an error-tagged result (no table at all) when client construction
fails, contradicting the unconditional claim of a successful zero-row
`text`/`value` table. -/
theorem claim_C5_counterexample :
    (∃ doc, c5cEnv.parseJson "m" = .ok doc ∧
      doc.queryType = "metricFindQuery" ∧
      doc.subtype ≠ "log_group_names" ∧ doc.subtype ≠ "log_stream_names") ∧
    Query c5cEnv {}
        { timeRange := { fromRaw := "0", toRaw := "1" },
          queries := [ { modelJson := "m" } ] } =
      (.ok { results := [ { refId := "metricFindQuery", error := "bad region" } ] },
        { clientCache := [], nextClientId := 0, sessionsConstructed := 1 }) ∧
    "bad region" ≠ "" := by
  refine ⟨⟨_, rfl, rfl, by decide, by decide⟩, by decide, by decide⟩

/-- C8: errors of the metadata-suggestion path and of the bulk path are
wrapped into a successful envelope holding one error-tagged result (with the
fixed `metricFindQuery` reference id in the former case and no reference id
in the latter), while an error anywhere in the annotation path surfaces as a
transport-level error with no response. -/
theorem claim_C8 (env : Env) (st : ClientState)
    (req : datasource.DatasourceRequest) (q0 : datasource.Query)
    (doc : SimpleJson) (e : String) (st1 : ClientState)
    (hq0 : req.queries.head? = some q0)
    (hparse : env.parseJson q0.modelJson = .ok doc) :
    (doc.queryType = "metricFindQuery" →
      metricFindQuery env st doc = (.error e, st1) →
      Query env st req =
        (.ok { results := [ { refId := "metricFindQuery", error := e } ] }, st1)) ∧
    (doc.queryType ≠ "metricFindQuery" → doc.queryType ≠ "annotationQuery" →
      handleQuery env st req = (.error e, st1) →
      Query env st req = (.ok { results := [ { error := e } ] }, st1)) ∧
    (doc.queryType = "annotationQuery" →
      annotQueryBranch env st q0 req.timeRange = (.error e, st1) →
      Query env st req = (.transportError e, st1)) := by
  refine ⟨?_, ?_, ?_⟩
  · intro hqt hmf
    simp only [Query, hq0, hparse, if_pos hqt, hmf]
  · intro h1 h2 hh
    simp only [Query, hq0, hparse, if_neg h1, if_neg h2, hh]
  · intro hqt hab
    have h1 : doc.queryType ≠ "metricFindQuery" := by rw [hqt]; decide
    simp only [Query, hq0, hparse, if_neg h1, if_pos hqt, hab]

/-- C8 witness: the metadata-suggestion branch of the claim at a concrete
failing request. -/
theorem claim_C8_witness :
    Query c8wEnv {}
        { timeRange := { fromRaw := "0", toRaw := "1" },
          queries := [ { modelJson := "m" } ] } =
      (.ok { results := [ { refId := "metricFindQuery", error := "find boom" } ] },
        { clientCache := [], nextClientId := 0, sessionsConstructed := 1 }) :=
  (claim_C8 c8wEnv {} _ { modelJson := "m" }
      { queryType := "metricFindQuery", region := "x", subtype := "log_group_names" }
      "find boom" { clientCache := [], nextClientId := 0, sessionsConstructed := 1 }
      (by decide) (by decide)).1 (by decide) (by decide)

/-- C9: a request dispatched as `annotationQuery` decodes only the first
target (the result is insensitive to the remaining queries), overwrites the
target filter's start/end with the request's parsed global range, accumulates
all fetched pages, and on success answers with a single result whose metadata
field is the serialized accumulated payload, with no reference id, no error
and no table attached. -/
theorem claim_C9 (env : Env) (st : ClientState)
    (req : datasource.DatasourceRequest) (q0 : datasource.Query)
    (doc : SimpleJson) (target : Target) (fromRaw toRaw : Int) (svc : Nat)
    (st1 : ClientState) (pages : List (List cloudwatchlogs.FilteredLogEvent))
    (s : String)
    (hq0 : req.queries.head? = some q0)
    (hparse : env.parseJson q0.modelJson = .ok doc)
    (hqt : doc.queryType = "annotationQuery")
    (hun : env.unmarshalTarget q0.modelJson = .ok target)
    (hfrom : parseInt64 req.timeRange.fromRaw = .ok fromRaw)
    (hto : parseInt64 req.timeRange.toRaw = .ok toRaw)
    (hcli : GetClient env st target.region = (.ok svc, st1))
    (hfetch : env.filterLogEventsPages svc
        { target.input with startTime := some fromRaw, endTime := some toRaw } =
      .ok pages)
    (hmarshal : env.marshalOutput pages.flatten = .ok s) :
    Query env st req =
      (.ok { results := [ { refId := "", error := "", metaJson := s, tables := [] } ] },
        st1) ∧
    (∀ rest, Query env st { timeRange := req.timeRange, queries := q0 :: rest } =
       Query env st req) := by
  have h1 : doc.queryType ≠ "metricFindQuery" := by rw [hqt]; decide
  have hab :
      annotQueryBranch env st q0 req.timeRange =
        (.ok { results := [ { metaJson := s } ] }, st1) := by
    simp only [annotQueryBranch, hun, hfrom, hto, hcli, hfetch, hmarshal]
  constructor
  · simp only [Query, hq0, hparse, if_neg h1, if_pos hqt, hab]
  · intro rest
    simp only [Query, List.head?_cons, hq0, hparse, if_neg h1, if_pos hqt]

/-- C9 witness: the annotation path at a concrete request. -/
theorem claim_C9_witness :
    Query c9wEnv {}
        { timeRange := { fromRaw := "0", toRaw := "1" },
          queries := [ { modelJson := "m" } ] } =
      (.ok { results := [ { refId := "", error := "", metaJson := "payload", tables := [] } ] },
        { clientCache := [("r9", 0)], nextClientId := 1, sessionsConstructed := 1 }) :=
  (claim_C9 c9wEnv {} _ { modelJson := "m" } { queryType := "annotationQuery" }
      { region := "r9", input := { logGroupName := some "g" } } 0 1 0
      { clientCache := [("r9", 0)], nextClientId := 1, sessionsConstructed := 1 }
      [ [ { timestamp := 1700000000123, ingestionTime := 1700000000456,
            logStreamName := "s", message := "m" } ] ]
      "payload"
      (by decide) (by decide) (by decide) (by decide) (by decide) (by decide)
      (by decide) (by decide) (by decide)).1

/-! ## The `sort.Slice` ordering for log groups -/

lemma stableSortGroupsDesc_spec : SortSliceSpecGroups stableSortGroupsDesc :=
  fun l => ⟨List.perm_insertionSort lgGe l, List.sorted_insertionSort lgGe l⟩

/-- C4 (amended): for every `sort.Slice` algorithm satisfying its documented
contract, a multi-page `log_group_names` lookup emits one suggestion per
group of the concatenation of all pages (a permutation of it, with no extra
deduplication), arranged in descending creation-time order; the relative
order of groups with equal creation time is NOT fixed by the code (Go's
`sort.Slice` is documented as unstable), which is what the counterexample
exhibits. -/
theorem claim_C4 (env : Env) (st : ClientState) (params : SimpleJson)
    (svc : Nat) (st1 : ClientState)
    (pages : List (List cloudwatchlogs.LogGroup))
    (hspec : SortSliceSpecGroups env.sortSliceGroups)
    (hsub : params.subtype = "log_group_names")
    (hcli : GetClient env st params.region = (.ok svc, st1))
    (hdesc : env.describeLogGroupsPages svc params.prefixValue = .ok pages) :
    ∃ groups : List cloudwatchlogs.LogGroup,
      groups.Perm pages.flatten ∧ groups.Pairwise lgGe ∧
      metricFindQuery env st params =
        (.ok
          { results :=
              [ { refId := "metricFindQuery",
                  tables :=
                    [ transformToTable (groups.map fun g =>
                        { text := g.logGroupName, value := g.logGroupName }) ] } ] },
          st1) := by
  obtain ⟨hperm, hpair⟩ := hspec pages.flatten
  refine ⟨env.sortSliceGroups pages.flatten, hperm, hpair, ?_⟩
  simp only [metricFindQuery, hcli, if_pos hsub, hdesc]

/-- C4 witness: the amended claim at a concrete two-page listing. -/
theorem claim_C4_witness :
    ∃ groups : List cloudwatchlogs.LogGroup,
      groups.Perm
        (( [ [ { logGroupName := "older", creationTime := 10 } ],
             [ { logGroupName := "newer", creationTime := 20 } ] ] :
           List (List cloudwatchlogs.LogGroup)).flatten) ∧
      groups.Pairwise lgGe ∧
      metricFindQuery c4wEnv {} { subtype := "log_group_names", region := "r4" } =
        (.ok
          { results :=
              [ { refId := "metricFindQuery",
                  tables :=
                    [ transformToTable (groups.map fun g =>
                        { text := g.logGroupName, value := g.logGroupName }) ] } ] },
          { clientCache := [("r4", 0)], nextClientId := 1, sessionsConstructed := 1 }) :=
  claim_C4 c4wEnv {} { subtype := "log_group_names", region := "r4" } 0
    { clientCache := [("r4", 0)], nextClientId := 1, sessionsConstructed := 1 }
    [ [ { logGroupName := "older", creationTime := 10 } ],
      [ { logGroupName := "newer", creationTime := 20 } ] ]
    stableSortGroupsDesc_spec (by decide) (by decide) (by decide)

/-- C4 counterexample: the original claim additionally demands provider order
on creation-time ties (a stable sort), i.e. agreement with the unique stable
descending arrangement. Running the library's actual deterministic algorithm
(`goSortSliceGroups`, Go 1.8-1.18) on the concrete eight-group two-page
listing `c4GoPages`, the gap-6 ShellSort pass swaps positions 6 and 0
(creation time 5 > 1), carrying the later tied group `B` in front of the
earlier `A`, and the stable insertion sort that follows preserves the
inversion, so the suggestion order disagrees with the stable arrangement on
the tie. -/
theorem claim_C4_counterexample :
    (c4GoPages.flatten.map cloudwatchlogs.LogGroup.logGroupName =
      ["n1", "A", "n9", "n8", "n7", "n6", "B", "n0"]) ∧
    ((goSortSliceGroups c4GoPages.flatten).map cloudwatchlogs.LogGroup.logGroupName =
      ["n9", "n8", "n7", "n6", "B", "A", "n1", "n0"]) ∧
    ((stableSortGroupsDesc c4GoPages.flatten).map cloudwatchlogs.LogGroup.logGroupName =
      ["n9", "n8", "n7", "n6", "A", "B", "n1", "n0"]) ∧
    ¬ (∀ (env : Env) (st : ClientState) (params : SimpleJson) (svc : Nat)
         (st1 : ClientState) (pages : List (List cloudwatchlogs.LogGroup)),
        env.sortSliceGroups = goSortSliceGroups →
        params.subtype = "log_group_names" →
        GetClient env st params.region = (.ok svc, st1) →
        env.describeLogGroupsPages svc params.prefixValue = .ok pages →
        metricFindQuery env st params =
          (.ok
            { results :=
                [ { refId := "metricFindQuery",
                    tables :=
                      [ transformToTable
                          ((stableSortGroupsDesc pages.flatten).map fun g =>
                            { text := g.logGroupName, value := g.logGroupName }) ] } ] },
            st1)) := by
  refine ⟨by decide, by decide, by decide, ?_⟩
  intro h
  have hinst := h c4GoEnv {} { subtype := "log_group_names", region := "r4" } 0
    { clientCache := [("r4", 0)], nextClientId := 1, sessionsConstructed := 1 }
    c4GoPages rfl rfl (by decide) rfl
  exact absurd hinst (by decide)

example :
    (goSortSliceGroups c4GoPages.flatten).map cloudwatchlogs.LogGroup.logGroupName =
      ["n9", "n8", "n7", "n6", "B", "A", "n1", "n0"] := by decide

example :
    (stableSortGroupsDesc c4GoPages.flatten).map cloudwatchlogs.LogGroup.logGroupName =
      ["n9", "n8", "n7", "n6", "A", "B", "n1", "n0"] := by decide

